import Mathlib

/-!
Verification development for `scripts/port_from_sqlite_to_postgres.py`, the
resumable SQLite-to-PostgreSQL bulk migrator.  The Python source is shallowly
embedded below: pure row transforms become Lean functions, the chunked copy
loop becomes an explicit state-transition function, destination writes are
recorded as lists of transactions (each transaction a list of operations), and
code paths that raise become `Option`-valued functions.
-/

namespace Port

/-- Column value as the porter sees it coming out of SQLite and going into
PostgreSQL.  `vBool` only appears as the output of the boolean coercion. -/
inductive Val where
  | vInt (n : Int)
  | vStr (s : String)
  | vNull
  | vBool (b : Bool)
deriving DecidableEq, Repr

/-- Python truthiness, as used by `bool(col)` in `Porter._convert_rows`. -/
def Val.truthy : Val → Bool
  | .vInt n => n != 0
  | .vStr s => s != ""
  | .vNull => false
  | .vBool b => b

/-- The `BOOLEAN_COLUMNS` dict of the script, accessed as
`BOOLEAN_COLUMNS.get(table, [])`. -/
def BOOLEAN_COLUMNS : String → List String
  | "events" => ["processed", "outlier"]
  | "rooms" => ["is_public"]
  | "event_edges" => ["is_state"]
  | "presence_list" => ["accepted"]
  | _ => []

/-- The `APPEND_ONLY_TABLES` list of the script. -/
def APPEND_ONLY_TABLES : List String :=
  ["event_content_hashes", "event_reference_hashes", "event_signatures",
   "event_edge_hashes", "events", "event_json", "state_events",
   "room_memberships", "feedback", "topics", "room_names", "rooms",
   "local_media_repository", "local_media_repository_thumbnails",
   "remote_media_cache", "remote_media_cache_thumbnails", "redactions",
   "event_edges", "event_auth", "received_transactions", "sent_transactions",
   "transaction_id_to_pdu", "users", "state_groups", "state_groups_state",
   "event_to_state_groups", "rejections"]

/-- Index list `[i for i, h in enumerate(headers) if h in bool_col_names]`
from `Porter._convert_rows`, written as the indexed traversal the
comprehension denotes; the first argument of the recursion is the running
`enumerate` index. -/
def bool_cols (bool_col_names : List String) : Nat → List String → List Nat
  | _, [] => []
  | i, h :: rest =>
    if bool_col_names.contains h then i :: bool_cols bool_col_names (i + 1) rest
    else bool_cols bool_col_names (i + 1) rest

/-- The inner `conv(j, col)` of `Porter._convert_rows`: coerce to boolean when
the column index is declared, otherwise pass the value through. -/
def conv (bool_cs : List Nat) (j : Nat) (col : Val) : Val :=
  if bool_cs.contains j then .vBool col.truthy else col

/-- The comprehension
`tuple(encode_parameter(conv(j, col)) for j, col in enumerate(row) if j > 0)`
of `Porter._convert_rows`, again as the indexed traversal it denotes.
`encode` stands for the destination engine's `encode_parameter`, which lives
outside this file's source and is kept abstract. -/
def convertEntries (encode : Val → Val) (bool_cs : List Nat) : Nat → List Val → List Val
  | _, [] => []
  | j, col :: rest =>
    if j > 0 then encode (conv bool_cs j col) :: convertEntries encode bool_cs (j + 1) rest
    else convertEntries encode bool_cs (j + 1) rest

/-- One row's transformation in `Porter._convert_rows` (the body of the
`for i, row in enumerate(rows)` loop). -/
def convert_row (encode : Val → Val) (table : String) (headers : List String)
    (row : List Val) : List Val :=
  convertEntries encode (bool_cols (BOOLEAN_COLUMNS table) 0 headers) 0 row

/-- `Porter._convert_rows` over a whole page of rows. -/
def convert_rows (encode : Val → Val) (table : String) (headers : List String)
    (rows : List (List Val)) : List (List Val) :=
  rows.map (convert_row encode table headers)

theorem bool_cols_ge (names : List String) :
    ∀ (s : Nat) (l : List String) (j : Nat), j ∈ bool_cols names s l → s ≤ j := by
  intro s l
  induction l generalizing s with
  | nil => intro j h; simp [bool_cols] at h
  | cons h rest ih =>
    intro j hj
    by_cases hc : names.contains h
    · simp only [bool_cols, hc, if_pos] at hj
      rcases List.mem_cons.mp hj with rfl | hj
      · exact le_refl j
      · exact Nat.le_of_succ_le (ih (s + 1) j hj)
    · simp only [bool_cols, hc, if_neg, Bool.false_eq_true, not_false_iff] at hj
      exact Nat.le_of_succ_le (ih (s + 1) j hj)

theorem bool_cols_mem_iff (names : List String) :
    ∀ (s i : Nat) (l : List String),
      (s + i) ∈ bool_cols names s l ↔
        ∃ hname, l.get? i = some hname ∧ names.contains hname = true := by
  intro s i l
  induction l generalizing s i with
  | nil => simp [bool_cols]
  | cons h rest ih =>
    cases i with
    | zero =>
      by_cases hc : names.contains h
      · simp only [bool_cols, hc, if_pos, Nat.add_zero, List.get?]
        constructor
        · intro _; exact ⟨h, rfl, hc⟩
        · intro _; exact List.mem_cons_self s _
      · simp only [bool_cols, hc, if_neg, Bool.false_eq_true, not_false_iff,
          Nat.add_zero, List.get?]
        constructor
        · intro hmem
          exact absurd (bool_cols_ge names (s + 1) rest s hmem) (by omega)
        · rintro ⟨hname, heq, hcontains⟩
          cases heq
          exact absurd hcontains hc
    | succ i2 =>
      have harith : s + (i2 + 1) = (s + 1) + i2 := by omega
      by_cases hc : names.contains h
      · simp only [bool_cols, hc, if_pos, List.get?]
        rw [harith]
        rw [List.mem_cons]
        constructor
        · intro hor
          rcases hor with heq | hmem
          · omega
          · exact (ih (s + 1) i2).mp hmem
        · intro hex
          exact Or.inr ((ih (s + 1) i2).mpr hex)
      · simp only [bool_cols, hc, if_neg, Bool.false_eq_true, not_false_iff, List.get?]
        rw [harith]
        exact ih (s + 1) i2

theorem convertEntries_get? (encode : Val → Val) (bool_cs : List Nat) :
    ∀ (s k : Nat) (l : List Val), 1 ≤ s →
      (convertEntries encode bool_cs s l).get? k
        = (l.get? k).map (fun c => encode (conv bool_cs (s + k) c)) := by
  intro s k l
  induction l generalizing s k with
  | nil => intro _; simp [convertEntries]
  | cons c rest ih =>
    intro hs
    have hpos : s > 0 := hs
    simp only [convertEntries, if_pos hpos]
    cases k with
    | zero => simp
    | succ k2 =>
      simp only [List.get?, Option.map]
      have := ih (s + 1) k2 (by omega)
      have harith : s + 1 + k2 = s + (k2 + 1) := by omega
      rw [harith] at this
      exact this

theorem convertEntries_length (encode : Val → Val) (bool_cs : List Nat) :
    ∀ (s : Nat) (l : List Val), 1 ≤ s →
      (convertEntries encode bool_cs s l).length = l.length := by
  intro s l
  induction l generalizing s with
  | nil => intro _; simp [convertEntries]
  | cons c rest ih =>
    intro hs
    have hpos : s > 0 := hs
    simp only [convertEntries, if_pos hpos, List.length_cons]
    rw [ih (s + 1) (by omega)]

/-- C8: for every migrated row, each column declared in `BOOLEAN_COLUMNS` for
its table is written as exactly a boolean, computed as the truthiness of the
source value; every non-declared column's value is unaltered beyond the
engine's uniform `encode_parameter`; and the row identifier at index 0 is
dropped, so destination column `j` comes from source column `j + 1` and the
converted row is one entry shorter. -/
theorem c8_convert_rows (encode : Val → Val) (table : String)
    (headers : List String) (row : List Val) (j : Nat) (hname : String) (v : Val)
    (hh : headers.get? (j + 1) = some hname) (hv : row.get? (j + 1) = some v) :
    (convert_row encode table headers row).get? j
      = some (encode (if (BOOLEAN_COLUMNS table).contains hname then Val.vBool v.truthy else v))
    ∧ (convert_row encode table headers row).length = row.length - 1 := by
  cases row with
  | nil => simp at hv
  | cons r0 rest =>
    have hrest : rest.get? j = some v := hv
    have hunfold : convert_row encode table headers (r0 :: rest)
        = convertEntries encode (bool_cols (BOOLEAN_COLUMNS table) 0 headers) 1 rest := by
      simp [convert_row, convertEntries]
    constructor
    · rw [hunfold, convertEntries_get? encode _ 1 j rest (le_refl 1), hrest]
      simp only [Option.map]
      congr 1
      have hmem : ((1 + j) ∈ bool_cols (BOOLEAN_COLUMNS table) 0 headers)
          ↔ (BOOLEAN_COLUMNS table).contains hname = true := by
        have := bool_cols_mem_iff (BOOLEAN_COLUMNS table) 0 (1 + j) headers
        rw [Nat.zero_add] at this
        rw [Nat.add_comm 1 j] at this ⊢
        rw [this]
        constructor
        · rintro ⟨hname2, heq, hc⟩
          rw [hh] at heq
          cases heq
          exact hc
        · intro hc
          exact ⟨hname, hh, hc⟩
      by_cases hc : (BOOLEAN_COLUMNS table).contains hname = true
      · have : (1 + j) ∈ bool_cols (BOOLEAN_COLUMNS table) 0 headers := hmem.mpr hc
        simp only [conv, hc, if_true]
        rw [if_pos (List.elem_iff.mpr this)]
      · have : (1 + j) ∉ bool_cols (BOOLEAN_COLUMNS table) 0 headers := fun h => hc (hmem.mp h)
        simp only [conv]
        rw [if_neg hc, if_neg (fun hel => this (List.elem_iff.mp hel))]
    · rw [hunfold, convertEntries_length encode _ 1 rest (le_refl 1)]
      simp

/-- Witness for C8 at a concrete input: the declared `rooms.is_public` column
(source value 2) becomes exactly `true`, settled at destination index 1 after
the rowid at index 0 is dropped. -/
theorem c8_witness :
    (convert_row (fun v => v) ("rooms") (["rowid", "room_id", "is_public"])
        ([Val.vInt 7, Val.vStr ("r1"), Val.vInt 2])).get? 1
      = some ((fun v => v)
          (if (BOOLEAN_COLUMNS ("rooms")).contains ("is_public") then
            Val.vBool (Val.vInt 2).truthy else Val.vInt 2))
    ∧ (convert_row (fun v => v) ("rooms") (["rowid", "room_id", "is_public"])
        ([Val.vInt 7, Val.vStr ("r1"), Val.vInt 2])).length
      = ([Val.vInt 7, Val.vStr ("r1"), Val.vInt 2] : List Val).length - 1 :=
  c8_convert_rows (fun v => v) ("rooms") (["rowid", "room_id", "is_public"])
    ([Val.vInt 7, Val.vStr ("r1"), Val.vInt 2]) 1 ("is_public") (Val.vInt 2)
    (by rfl) (by rfl)

/-- One destination-store write operation, as issued by the porter.  The
bookkeeping table is `port_from_sqlite3`; `insertBookkeeping` is its
`_simple_insert`, `updateBookkeeping` its `_simple_update_one_txn`,
`deleteBookkeeping` the `DELETE ... WHERE table_name = ?` and `truncate` the
`TRUNCATE ... CASCADE` of `delete_all`. -/
inductive Op (ρ : Type) where
  | insertRows (table : String) (rows : List ρ)
  | insertBookkeeping (table : String) (rowid : Nat)
  | updateBookkeeping (table : String) (rowid : Nat)
  | deleteBookkeeping (table : String)
  | truncate (table : String)
deriving DecidableEq, Repr

/-- A destination transaction: the operations committed atomically by one
`runInteraction` against the PostgreSQL store. -/
abbrev Txn (ρ : Type) := List (Op ρ)

/-- Does this operation write (create or advance) the bookkeeping cursor? -/
def Op.isBookWrite : Op ρ → Bool
  | .insertBookkeeping _ _ => true
  | .updateBookkeeping _ _ => true
  | _ => false

/-- Is this operation a batch row insert? -/
def Op.isInsertRows : Op ρ → Bool
  | .insertRows _ _ => true
  | _ => false

/-- Every transaction of the trace that writes the bookkeeping cursor also
contains a batch row insert — the transactionality asserted by the spec's
cursor invariant. -/
def cursor_advance_transactional (trace : List (Txn ρ)) : Bool :=
  trace.all fun txn => !txn.any Op.isBookWrite || txn.any Op.isInsertRows

/-- Migration state of one table during the `handle_table` copy loop:
`pg` is the list of source rows (rowid paired with payload) already committed
at the destination, `cursor` the value stored in `port_from_sqlite3.rowid`. -/
structure CopyState (α : Type) where
  pg : List (Nat × α)
  cursor : Nat
deriving DecidableEq, Repr

/-- The page read of `handle_table`:
`SELECT rowid, * FROM table WHERE rowid >= ? ORDER BY rowid LIMIT ?`.
The source list is kept sorted by rowid, so the SQL's ordering is the list
order and `LIMIT` is `take`. -/
def selectPage (src : List (Nat × α)) (cursor batch_size : Nat) : List (Nat × α) :=
  (src.filter fun r => cursor ≤ r.1).take batch_size

/-- One iteration of the `handle_table` loop.  An empty page returns `none`
(the loop terminates); otherwise `next_chunk = rows[-1][0] + 1` and a single
destination transaction performs `insert_many_txn` of the page together with
`_simple_update_one_txn` of the bookkeeping cursor. -/
def copyStep (table : String) (src : List (Nat × α)) (batch_size : Nat)
    (st : CopyState α) : Option (CopyState α × Txn (Nat × α)) :=
  let rows := selectPage src st.cursor batch_size
  match rows.getLast? with
  | none => none
  | some last =>
    let next_chunk := last.1 + 1
    some (⟨st.pg ++ rows, next_chunk⟩,
      [Op.insertRows table rows, Op.updateBookkeeping table next_chunk])

/-- The whole `handle_table` loop, driven by fuel (the loop itself runs until
a page is empty; `src.length + 1` fuel always suffices for a sorted source).
Returns the final state and the list of committed transactions in order. -/
def handle_table_loop (table : String) (src : List (Nat × α)) (batch_size : Nat) :
    Nat → CopyState α → CopyState α × List (Txn (Nat × α))
  | 0, st => (st, [])
  | fuel + 1, st =>
    match copyStep table src batch_size st with
    | none => (st, [])
    | some (st2, txn) =>
      let rest := handle_table_loop table src batch_size fuel st2
      (rest.1, txn :: rest.2)

/-- Largest rowid among a list of committed rows (0 when empty). -/
def maxRowid (pg : List (Nat × α)) : Nat := (pg.map Prod.fst).foldr max 0

theorem le_foldr_max (n : Nat) (l : List Nat) (h : n ∈ l) : n ≤ l.foldr max 0 := by
  induction l with
  | nil => simp at h
  | cons m rest ih =>
    rcases List.mem_cons.mp h with rfl | h2
    · exact Nat.le_max_left n _
    · exact le_trans (ih h2) (Nat.le_max_right m _)

theorem foldr_max_le (l : List Nat) (m : Nat) (h : ∀ n ∈ l, n ≤ m) : l.foldr max 0 ≤ m := by
  induction l with
  | nil => simp
  | cons k rest ih =>
    simp only [List.foldr_cons]
    exact Nat.max_le.mpr ⟨h k (List.mem_cons_self k rest), ih fun n hn => h n (List.mem_cons_of_mem k hn)⟩

theorem foldr_max_mem (l : List Nat) (h : l ≠ []) : l.foldr max 0 ∈ l := by
  induction l with
  | nil => exact absurd rfl h
  | cons k rest ih =>
    cases rest with
    | nil => simp
    | cons k2 rest2 =>
      have hfold : List.foldr max 0 (k :: k2 :: rest2)
          = max k (List.foldr max 0 (k2 :: rest2)) := rfl
      rw [hfold]
      rcases Nat.le_total (List.foldr max 0 (k2 :: rest2)) k with hle | hle
      · rw [max_eq_left hle]; exact List.mem_cons_self k _
      · rw [max_eq_right hle]
        exact List.mem_cons_of_mem k (ih (by simp))

theorem le_getLast_of_sorted (l : List (Nat × α))
    (hs : l.Pairwise fun a b => a.1 < b.1) (last : Nat × α)
    (hl : l.getLast? = some last) : ∀ x ∈ l, x.1 ≤ last.1 := by
  induction l with
  | nil => simp at hl
  | cons a t ih =>
    cases t with
    | nil =>
      intro x hx
      simp at hl
      rcases List.mem_singleton.mp hx with rfl
      rw [hl]
    | cons b t2 =>
      rw [List.getLast?_cons_cons] at hl
      have hrel : ∀ y ∈ b :: t2, a.1 < y.1 := (List.pairwise_cons.mp hs).1
      have htl : (b :: t2).Pairwise fun a b => a.1 < b.1 := (List.pairwise_cons.mp hs).2
      intro x hx
      rcases List.mem_cons.mp hx with rfl | hx2
      · have hmem : last ∈ b :: t2 := List.mem_of_getLast?_eq_some hl
        exact le_of_lt (hrel last hmem)
      · exact ih htl hl x hx2

theorem selectPage_sorted (src : List (Nat × α)) (cursor bs : Nat)
    (hs : src.Pairwise fun a b => a.1 < b.1) :
    (selectPage src cursor bs).Pairwise fun a b => a.1 < b.1 :=
  List.Pairwise.sublist ((List.take_sublist bs _).trans (List.filter_sublist src)) hs

theorem selectPage_mem (src : List (Nat × α)) (cursor bs : Nat) :
    ∀ r ∈ selectPage src cursor bs, r ∈ src ∧ cursor ≤ r.1 := by
  intro r hr
  have hf : r ∈ src.filter fun x => cursor ≤ x.1 := List.mem_of_mem_take hr
  have := List.mem_filter.mp hf
  exact ⟨this.1, by simpa using this.2⟩

/-- C4: each `handle_table` iteration with a nonempty page commits, in one
destination transaction, exactly the batch insert together with the cursor
update to `last rowid in page + 1`; after the commit the stored cursor equals
`1 + max rowid among rows committed so far`, the cursor never decreases, and
every committed row again lies below the cursor (so the property propagates to
every later commit of the run). -/
theorem c4_handle_table_iteration (table : String) (src : List (Nat × α))
    (batch_size : Nat) (st st2 : CopyState α) (txn : Txn (Nat × α))
    (hs : src.Pairwise fun a b => a.1 < b.1)
    (hpg : ∀ r ∈ st.pg, r.1 < st.cursor)
    (hstep : copyStep table src batch_size st = some (st2, txn)) :
    txn = [Op.insertRows table (selectPage src st.cursor batch_size),
           Op.updateBookkeeping table st2.cursor]
    ∧ st2.cursor = maxRowid st2.pg + 1
    ∧ st.cursor ≤ st2.cursor
    ∧ ∀ r ∈ st2.pg, r.1 < st2.cursor := by
  simp only [copyStep] at hstep
  cases hlast : (selectPage src st.cursor batch_size).getLast? with
  | none => rw [hlast] at hstep; simp at hstep
  | some last =>
    rw [hlast] at hstep
    have hpair := Option.some.inj hstep
    have hst2 : st2 = ⟨st.pg ++ selectPage src st.cursor batch_size, last.1 + 1⟩ :=
      ((Prod.ext_iff.mp hpair).1).symm
    have htxn : txn = [Op.insertRows table (selectPage src st.cursor batch_size),
                 Op.updateBookkeeping table (last.1 + 1)] :=
      ((Prod.ext_iff.mp hpair).2).symm
    have hlastmem : last ∈ selectPage src st.cursor batch_size :=
      List.mem_of_getLast?_eq_some hlast
    have hcur_le : st.cursor ≤ last.1 := (selectPage_mem src st.cursor batch_size last hlastmem).2
    have hpage_le : ∀ r ∈ selectPage src st.cursor batch_size, r.1 ≤ last.1 :=
      le_getLast_of_sorted _ (selectPage_sorted src st.cursor batch_size hs) last hlast
    have hmax : maxRowid (st.pg ++ selectPage src st.cursor batch_size) = last.1 := by
      apply Nat.le_antisymm
      · apply foldr_max_le
        intro n hn
        rcases List.mem_map.mp hn with ⟨r, hr, rfl⟩
        rcases List.mem_append.mp hr with hr2 | hr2
        · exact le_trans (le_of_lt (hpg r hr2)) hcur_le
        · exact hpage_le r hr2
      · apply le_foldr_max
        exact List.mem_map.mpr ⟨last, List.mem_append.mpr (Or.inr hlastmem), rfl⟩
    subst hst2
    refine ⟨htxn, by simpa using hmax.symm, by simp; omega, ?_⟩
    intro r hr
    rcases List.mem_append.mp hr with hr2 | hr2
    · simp only
      exact lt_of_lt_of_le (hpg r hr2) (by omega)
    · simp only
      exact lt_of_le_of_lt (hpage_le r hr2) (by omega)

/-- Witness for C4 at a concrete input: source rows 1 and 2, batch size 2,
fresh state; the committed transaction holds both writes and the cursor
becomes 3 = 1 + max committed rowid. -/
theorem c4_witness :
    ([Op.insertRows ("t") (selectPage ([(1, 10), (2, 20)] : List (Nat × Nat)) 1 2),
      Op.updateBookkeeping ("t") (3 : Nat)]
        = [Op.insertRows ("t") (selectPage ([(1, 10), (2, 20)] : List (Nat × Nat)) 1 2),
           Op.updateBookkeeping ("t") 3])
    ∧ (3 : Nat) = maxRowid (([] : List (Nat × Nat)) ++ [(1, 10), (2, 20)]) + 1
    ∧ (1 : Nat) ≤ 3
    ∧ ∀ r ∈ (([] : List (Nat × Nat)) ++ [(1, 10), (2, 20)]), r.1 < 3 := by
  have h := c4_handle_table_iteration ("t") ([(1, 10), (2, 20)] : List (Nat × Nat)) 2
    ⟨[], 1⟩ ⟨[(1, 10), (2, 20)], 3⟩
    [Op.insertRows ("t") (selectPage ([(1, 10), (2, 20)] : List (Nat × Nat)) 1 2),
     Op.updateBookkeeping ("t") 3]
    (by decide) (by intro r hr; simp at hr) (by rfl)
  exact ⟨h.1 ▸ rfl, h.2.1, h.2.2.1, h.2.2.2⟩

/-- Destination-side state of one table: its committed rows (tagged by source
rowid) and its `port_from_sqlite3` bookkeeping value, if any. -/
structure TableState (α : Type) where
  rows : List (Nat × α)
  book : Option Nat
deriving DecidableEq, Repr

/-- The `delete_all` transaction of `Porter.setup_table`'s mutable branch:
delete the table's bookkeeping row and `TRUNCATE ... CASCADE` its destination
rows, in one transaction. -/
def delete_all_txn (table : String) : Txn ρ :=
  [Op.deleteBookkeeping table, Op.truncate table]

/-- Destination transactions issued by `Porter.setup_table` for a
mutable/snapshot table: the `delete_all` transaction, then — in a separate
`_simple_insert` transaction — the bookkeeping row with `rowid = 0`
(the copy itself then starts from `next_chunk = 1`). -/
def setup_table_mutable_txns (table : String) : List (Txn ρ) :=
  [delete_all_txn table, [Op.insertBookkeeping table 0]]

/-- Full migration of a mutable/snapshot table: `Porter.setup_table`'s
non-append-only branch (delete bookkeeping, truncate — wiping whatever `st`
held — then insert bookkeeping `rowid = 0` and set `next_chunk = 1`) followed
by the `handle_table` copy loop, whose every committed batch also updates the
bookkeeping cursor.  `src.length + 1` fuel runs the loop to page exhaustion. -/
def migrate_mutable (table : String) (src : List (Nat × α)) (batch_size : Nat)
    (_st : TableState α) : TableState α :=
  let truncated : List (Nat × α) := []
  let res := handle_table_loop table src batch_size (src.length + 1) ⟨truncated, 1⟩
  { rows := res.1.pg,
    book := some (if res.2.isEmpty then 0 else res.1.cursor) }

/-- C7: for a mutable/snapshot table, running the migration twice in a row
produces destination content identical to running it once, and — because
planning first deletes the bookkeeping row and truncates the destination rows
before recopying from start cursor 1 — the result never depends on the prior
destination state at all. -/
theorem c7_mutable_idempotent (table : String) (src : List (Nat × α))
    (batch_size : Nat) (st : TableState α) :
    migrate_mutable table src batch_size (migrate_mutable table src batch_size st)
      = migrate_mutable table src batch_size st
    ∧ migrate_mutable table src batch_size st
      = migrate_mutable table src batch_size ⟨[], none⟩ :=
  ⟨rfl, rfl⟩

/-- A `sent_transactions` source row as `_setup_sent_transactions` reads it:
the implicit rowid, the `destination` partition key and the `ts` timestamp in
milliseconds (other columns do not influence the policy). -/
structure STRow where
  rowid : Nat
  destination : String
  ts : Int
deriving DecidableEq, Repr

/-- The `SELECT max(rowid) FROM sent_transactions GROUP BY destination`
value for one destination (groups are nonempty for every destination that
occurs, so the 0 default is never the reported max). -/
def maxRowidFor (src : List STRow) (d : String) : Nat :=
  (((src.filter fun r => r.destination == d).map STRow.rowid).foldr max 0)

/-- The set (as a list) of per-destination maximum rowids, one per distinct
destination occurring in the source. -/
def groupMaxRowids (src : List STRow) : List Nat :=
  ((src.map STRow.destination).dedup).map (maxRowidFor src)

/-- The outer select of `_setup_sent_transactions`:
`SELECT rowid, * FROM sent_transactions WHERE rowid IN (SELECT max(rowid)
FROM sent_transactions GROUP BY destination)`. -/
def sent_select (src : List STRow) : List STRow :=
  src.filter fun r => (groupMaxRowids src).contains r.rowid

/-- The row set actually handed to the initial insert:
`[r for r in rows if r[ts_ind] < yesterday]` applied to the per-destination
maximum rows.  Note the comparison keeps rows strictly OLDER than the
24-hour cutoff. -/
def initialMigrated (yesterday : Int) (src : List STRow) : List STRow :=
  (sent_select src).filter fun r => r.ts < yesterday

/-- The `get_start_id` query:
`SELECT rowid FROM sent_transactions WHERE ts >= ? ORDER BY rowid ASC LIMIT 1`
with fallback 1 — the source list is kept sorted by rowid, so the first
filtered element is the query's result. -/
def get_start_id (yesterday : Int) (src : List STRow) : Nat :=
  match src.filter fun r => yesterday ≤ r.ts with
  | [] => 1
  | r :: _ => r.rowid

/-- The value `(next_chunk, inserted_rows, total_count)` returned by
`_setup_sent_transactions`, plus the migrated row set for specification
purposes. -/
structure SentSetup where
  next_chunk : Nat
  inserted_rows : Nat
  total_count : Nat
  migrated : List STRow
deriving DecidableEq, Repr

/-- The first-time setup of `sent_transactions`
(`Porter._setup_sent_transactions`).  `none` models the uncaught `ValueError`
from `max(r[0] for r in rows)` on an empty filtered row set — it is computed
before any destination write happens.  Otherwise:
`next_chunk = max(max_inserted_rowid + 1, get_start_id)`,
`total_count = remaining_count + inserted_rows`. -/
def _setup_sent_transactions (yesterday : Int) (src : List STRow) : Option SentSetup :=
  let rows := initialMigrated yesterday src
  if rows.isEmpty then
    none
  else
    let inserted_rows := rows.length
    let max_inserted_rowid := (rows.map STRow.rowid).foldr max 0
    let next_chunk := max (max_inserted_rowid + 1) (get_start_id yesterday src)
    let remaining_count := (src.filter fun r => yesterday ≤ r.ts).length
    some ⟨next_chunk, inserted_rows, remaining_count + inserted_rows, rows⟩

/-- Destination transactions issued by `_setup_sent_transactions`: the batch
insert of the reduced row set runs in one transaction
(`postgres_store.execute(insert)`), and only afterwards — in a separate
`_simple_insert` transaction — is the bookkeeping row written with
`rowid = next_chunk`.  When the row set is empty the `ValueError` fires
before any destination write, so the trace is empty. -/
def setup_sent_txns (yesterday : Int) (src : List STRow) : List (Txn STRow) :=
  match _setup_sent_transactions yesterday src with
  | none => []
  | some res =>
    [[Op.insertRows ("sent_transactions") res.migrated],
     [Op.insertBookkeeping ("sent_transactions") res.next_chunk]]

/-- The spec's §8 scenario, with "now" = T taken as a concrete epoch-millis
value: rows `(id=1, dest=A, ts=T-48h)`, `(id=2, dest=A, ts=T-1h)`,
`(id=3, dest=B, ts=T-30h)`. -/
def scenarioNow : Int := 1000000000000

/-- The 24-hour cutoff `yesterday = now - 86400000` for the §8 scenario. -/
def scenarioYesterday : Int := scenarioNow - 86400000

/-- The three source rows of the §8 scenario, sorted by rowid. -/
def scenarioSrc : List STRow :=
  [⟨1, "A", scenarioNow - 172800000⟩,
   ⟨2, "A", scenarioNow - 3600000⟩,
   ⟨3, "B", scenarioNow - 108000000⟩]

theorem le_maxRowidFor (src : List STRow) (r2 : STRow) (h : r2 ∈ src)
    (d : String) (hd : r2.destination = d) : r2.rowid ≤ maxRowidFor src d := by
  apply le_foldr_max
  exact List.mem_map.mpr ⟨r2, List.mem_filter.mpr ⟨h, by simp [hd]⟩, rfl⟩

theorem maxRowidFor_attained (src : List STRow) (d : String)
    (h : ∃ r ∈ src, r.destination = d) :
    ∃ rd ∈ src, rd.destination = d ∧ rd.rowid = maxRowidFor src d := by
  obtain ⟨r, hr, hrd⟩ := h
  have hg : r ∈ src.filter fun x => x.destination == d :=
    List.mem_filter.mpr ⟨hr, by simp [hrd]⟩
  have hne : ((src.filter fun x => x.destination == d).map STRow.rowid) ≠ [] := by
    intro hemp
    rw [List.map_eq_nil_iff] at hemp
    rw [hemp] at hg
    simp at hg
  have hmem := foldr_max_mem _ hne
  obtain ⟨rd, hrdg, hrdeq⟩ := List.mem_map.mp hmem
  have hsplit := List.mem_filter.mp hrdg
  exact ⟨rd, hsplit.1, by simpa using hsplit.2, hrdeq⟩

theorem groupMaxRowids_contains_iff (src : List STRow) (r : STRow)
    (hnd : (src.map STRow.rowid).Nodup) (hr : r ∈ src) :
    (groupMaxRowids src).contains r.rowid = true
      ↔ ∀ r2 ∈ src, r2.destination = r.destination → r2.rowid ≤ r.rowid := by
  constructor
  · intro hc
    have hmem : r.rowid ∈ groupMaxRowids src := List.elem_iff.mp hc
    obtain ⟨d, hd, heq⟩ := List.mem_map.mp hmem
    have hdocc : d ∈ src.map STRow.destination := List.mem_dedup.mp hd
    obtain ⟨rsrc, hrsrc, hrsrcd⟩ := List.mem_map.mp hdocc
    obtain ⟨rd, hrdmem, hrdd, hrdmax⟩ := maxRowidFor_attained src d ⟨rsrc, hrsrc, hrsrcd⟩
    have hrdr : rd = r := List.inj_on_of_nodup_map hnd hrdmem hr (by rw [hrdmax, heq])
    subst hrdr
    intro r2 hr2 hdest
    have := le_maxRowidFor src r2 hr2 d (by rw [hdest, hrdd])
    rw [heq] at this
    exact this
  · intro hmax
    have h1 : maxRowidFor src r.destination = r.rowid := by
      apply Nat.le_antisymm
      · apply foldr_max_le
        intro n hn
        obtain ⟨r2, hr2f, hr2eq⟩ := List.mem_map.mp hn
        have hsplit := List.mem_filter.mp hr2f
        subst hr2eq
        exact hmax r2 hsplit.1 (by simpa using hsplit.2)
      · exact le_maxRowidFor src r hr r.destination rfl
    have hd : r.destination ∈ (src.map STRow.destination).dedup :=
      List.mem_dedup.mpr (List.mem_map.mpr ⟨r, hr, rfl⟩)
    exact List.elem_iff.mpr (List.mem_map.mpr ⟨r.destination, hd, h1⟩)

/-- C1 counterexample: on the spec's own §8 scenario the initially migrated
set computed by `_setup_sent_transactions` is exactly `{id=3}` — the
per-destination maximum rows whose timestamp is OLDER than the 24-hour cutoff
(`r[ts_ind] < yesterday` in the source) — not `{id=2}` as the claim states. -/
theorem c1_counterexample :
    (initialMigrated scenarioYesterday scenarioSrc).map STRow.rowid = [3]
    ∧ (initialMigrated scenarioYesterday scenarioSrc).map STRow.rowid ≠ [2] := by
  refine ⟨by decide, ?_⟩
  intro h
  rw [show (initialMigrated scenarioYesterday scenarioSrc).map STRow.rowid = [3] by decide] at h
  simp at h

/-- C1 (amended): on first-time setup of `sent_transactions`, assuming
distinct rowids, the initially migrated set consists exactly of the rows that
carry the maximum rowid among all rows of their destination AND whose
timestamp is strictly older than the 24-hour cutoff; in the §8 scenario this
set is exactly `{id=3}`. -/
theorem c1_initial_set (yesterday : Int) (src : List STRow) (r : STRow)
    (hnd : (src.map STRow.rowid).Nodup) :
    r ∈ initialMigrated yesterday src ↔
      r ∈ src ∧ r.ts < yesterday ∧
        ∀ r2 ∈ src, r2.destination = r.destination → r2.rowid ≤ r.rowid := by
  unfold initialMigrated sent_select
  rw [List.mem_filter, List.mem_filter]
  constructor
  · rintro ⟨⟨hr, hc⟩, hts⟩
    exact ⟨hr, by simpa using hts, (groupMaxRowids_contains_iff src r hnd hr).mp hc⟩
  · rintro ⟨hr, hts, hmax⟩
    exact ⟨⟨hr, (groupMaxRowids_contains_iff src r hnd hr).mpr hmax⟩, by simpa using hts⟩

/-- Witness for C1 (amended) at the §8 scenario: row `id=3` (destination B's
maximum rowid, 30 hours old) is in the initially migrated set. -/
theorem c1_witness :
    (⟨3, "B", scenarioNow - 108000000⟩ : STRow)
      ∈ initialMigrated scenarioYesterday scenarioSrc :=
  (c1_initial_set scenarioYesterday scenarioSrc ⟨3, "B", scenarioNow - 108000000⟩
    (by decide)).mpr ⟨by decide, by decide, by decide⟩

/-- C5 counterexample: on the §8 scenario the persisted resumption cursor is
`max(3 + 1, 2) = 4`, not `max(3, first rowid with ts within the window)` = 3
as the claim instantiates it (the claim's `3` presumed the migrated set were
`{id=2}`; the code migrates `{id=3}`). -/
theorem c5_counterexample :
    (_setup_sent_transactions scenarioYesterday scenarioSrc).map SentSetup.next_chunk
      = some 4
    ∧ (4 : Nat) ≠ max 3 (get_start_id scenarioYesterday scenarioSrc) := by
  refine ⟨by decide, ?_⟩
  rw [show get_start_id scenarioYesterday scenarioSrc = 2 by decide]
  decide

/-- C5 (amended): when first-time setup of `sent_transactions` succeeds on a
rowid-sorted source, the persisted resumption cursor equals
`max(largest migrated rowid + 1, rowid of the first source row whose
timestamp is within the 24-hour window)`, the second operand defaulting to 1
when no source row lies within the window; in the §8 scenario the migrated
set is `{id=3}`, so this is `max(4, 2) = 4`. -/
theorem c5_resumption_cursor (yesterday : Int) (src : List STRow) (res : SentSetup)
    (hs : src.Pairwise fun a b => a.rowid < b.rowid)
    (h : _setup_sent_transactions yesterday src = some res) :
    ∃ m, m ∈ initialMigrated yesterday src
      ∧ (∀ r2 ∈ initialMigrated yesterday src, r2.rowid ≤ m.rowid)
      ∧ ((∃ w, w ∈ src ∧ yesterday ≤ w.ts
            ∧ (∀ r2 ∈ src, yesterday ≤ r2.ts → w.rowid ≤ r2.rowid)
            ∧ res.next_chunk = max (m.rowid + 1) w.rowid)
         ∨ ((∀ r ∈ src, r.ts < yesterday)
            ∧ res.next_chunk = max (m.rowid + 1) 1)) := by
  simp only [_setup_sent_transactions] at h
  by_cases hempty : (initialMigrated yesterday src).isEmpty
  · rw [if_pos hempty] at h
    simp at h
  · rw [if_neg hempty] at h
    have hne : (initialMigrated yesterday src).map STRow.rowid ≠ [] := by
      intro hemp
      rw [List.map_eq_nil_iff] at hemp
      rw [hemp] at hempty
      simp at hempty
    obtain ⟨m, hm, hmeq⟩ := List.mem_map.mp (foldr_max_mem _ hne)
    have hnc : res.next_chunk
        = max (((initialMigrated yesterday src).map STRow.rowid).foldr max 0 + 1)
            (get_start_id yesterday src) :=
      congrArg SentSetup.next_chunk (Option.some.inj h).symm
    refine ⟨m, hm, ?_, ?_⟩
    · intro r2 hr2
      have := le_foldr_max r2.rowid _ (List.mem_map.mpr ⟨r2, hr2, rfl⟩)
      rw [hmeq]
      exact this
    · cases hfilter : src.filter fun r => yesterday ≤ r.ts with
      | nil =>
        refine Or.inr ⟨?_, ?_⟩
        · intro r hrs
          have := List.filter_eq_nil_iff.mp hfilter r hrs
          simp at this
          exact this
        · rw [hnc, hmeq]
          unfold get_start_id
          rw [hfilter]
      | cons w rest =>
        have hwmem : w ∈ src.filter fun r => yesterday ≤ r.ts := by
          rw [hfilter]; exact List.mem_cons_self w rest
        have hwsplit := List.mem_filter.mp hwmem
        refine Or.inl ⟨w, hwsplit.1, by simpa using hwsplit.2, ?_, ?_⟩
        · intro r2 hr2 hts
          have hr2f : r2 ∈ src.filter fun r => yesterday ≤ r.ts :=
            List.mem_filter.mpr ⟨hr2, by simpa using hts⟩
          rw [hfilter] at hr2f
          rcases List.mem_cons.mp hr2f with rfl | hr2rest
          · exact le_refl _
          · have hsf : (src.filter fun r => yesterday ≤ r.ts).Pairwise
                fun a b => a.rowid < b.rowid :=
              List.Pairwise.sublist (List.filter_sublist src) hs
            rw [hfilter] at hsf
            exact le_of_lt ((List.pairwise_cons.mp hsf).1 r2 hr2rest)
        · rw [hnc, hmeq]
          unfold get_start_id
          rw [hfilter]

/-- Witness for C5 (amended) at the §8 scenario: setup succeeds with
`next_chunk = 4 = max(3 + 1, 2)`, the maximal migrated row being `id=3`. -/
theorem c5_witness :
    ∃ m, m ∈ initialMigrated scenarioYesterday scenarioSrc
      ∧ (∀ r2 ∈ initialMigrated scenarioYesterday scenarioSrc, r2.rowid ≤ m.rowid)
      ∧ ((∃ w, w ∈ scenarioSrc ∧ scenarioYesterday ≤ w.ts
            ∧ (∀ r2 ∈ scenarioSrc, scenarioYesterday ≤ r2.ts → w.rowid ≤ r2.rowid)
            ∧ (SentSetup.mk 4 1 2 [⟨3, "B", scenarioNow - 108000000⟩]).next_chunk
                = max (m.rowid + 1) w.rowid)
         ∨ ((∀ r ∈ scenarioSrc, r.ts < scenarioYesterday)
            ∧ (SentSetup.mk 4 1 2 [⟨3, "B", scenarioNow - 108000000⟩]).next_chunk
                = max (m.rowid + 1) 1)) :=
  c5_resumption_cursor scenarioYesterday scenarioSrc
    (SentSetup.mk 4 1 2 [⟨3, "B", scenarioNow - 108000000⟩]) (by decide) (by decide)

/-- C10: first-time setup of `sent_transactions` fails (the uncaught
`ValueError` from `max()` over an empty sequence, modelled as `none`) exactly
when the selected-and-filtered initial row set is empty; in particular it
fails on an empty source table. -/
theorem c10_empty_initial_set (yesterday : Int) (src : List STRow) :
    (_setup_sent_transactions yesterday src = none
      ↔ initialMigrated yesterday src = [])
    ∧ _setup_sent_transactions yesterday ([] : List STRow) = none := by
  refine ⟨?_, rfl⟩
  simp only [_setup_sent_transactions]
  by_cases hempty : (initialMigrated yesterday src).isEmpty
  · rw [if_pos hempty]
    simp only [true_iff]
    exact List.isEmpty_iff.mp hempty
  · rw [if_neg hempty]
    simp only [reduceCtorEq, false_iff]
    intro hnil
    exact hempty (List.isEmpty_iff.mpr hnil)

/-- C3 counterexample: on the §8 scenario, the `sent_transactions` first-time
setup commits the batch insert and the bookkeeping-cursor write in two
separate destination transactions — the trace has a transaction that writes
the cursor but contains no batch insert, contradicting the claim that every
cursor advance shares its transaction with the batch insert. -/
theorem c3_counterexample :
    cursor_advance_transactional (setup_sent_txns scenarioYesterday scenarioSrc) = false
    ∧ (setup_sent_txns scenarioYesterday scenarioSrc).length = 2 := by
  exact ⟨by decide, by decide⟩

/-- C3 (amended): in the ordinary copy loop every cursor advance is committed
in the same transaction as its batch insert, but in the `sent_transactions`
first-time setup the bookkeeping row is written in a separate, later
transaction than the batch insert, and in the mutable-table reinitialization
the bookkeeping row (value 0, while the copy starts at cursor 1) is likewise
written in its own transaction after the delete/truncate transaction. -/
theorem c3_cursor_advance_transactions :
    (∀ (α : Type) (table : String) (src : List (Nat × α)) (batch_size : Nat)
        (st st2 : CopyState α) (txn : Txn (Nat × α)),
      copyStep table src batch_size st = some (st2, txn) →
        cursor_advance_transactional [txn] = true ∧ txn.any Op.isBookWrite = true)
    ∧ (∀ (yesterday : Int) (src : List STRow) (res : SentSetup),
        _setup_sent_transactions yesterday src = some res →
          setup_sent_txns yesterday src
            = [[Op.insertRows ("sent_transactions") res.migrated],
               [Op.insertBookkeeping ("sent_transactions") res.next_chunk]]
          ∧ cursor_advance_transactional (setup_sent_txns yesterday src) = false)
    ∧ (∀ table : String,
        cursor_advance_transactional (setup_table_mutable_txns table (ρ := Nat)) = false) := by
  refine ⟨?_, ?_, ?_⟩
  · intro α table src batch_size st st2 txn hstep
    simp only [copyStep] at hstep
    cases hlast : (selectPage src st.cursor batch_size).getLast? with
    | none => rw [hlast] at hstep; simp at hstep
    | some last =>
      rw [hlast] at hstep
      have htxn : txn = [Op.insertRows table (selectPage src st.cursor batch_size),
                   Op.updateBookkeeping table (last.1 + 1)] :=
        ((Prod.ext_iff.mp (Option.some.inj hstep)).2).symm
      subst htxn
      exact ⟨rfl, rfl⟩
  · intro yesterday src res h
    have htrace : setup_sent_txns yesterday src
        = [[Op.insertRows ("sent_transactions") res.migrated],
           [Op.insertBookkeeping ("sent_transactions") res.next_chunk]] := by
      unfold setup_sent_txns
      rw [h]
    exact ⟨htrace, by rw [htrace]; rfl⟩
  · intro table
    rfl

/-- Witness for C3 (amended) at concrete inputs: the scenario's
`sent_transactions` setup trace is the two-transaction trace, with the
cursor write alone in the second transaction. -/
theorem c3_witness :
    setup_sent_txns scenarioYesterday scenarioSrc
      = [[Op.insertRows ("sent_transactions")
            (SentSetup.mk 4 1 2 [⟨3, "B", scenarioNow - 108000000⟩]).migrated],
         [Op.insertBookkeeping ("sent_transactions")
            (SentSetup.mk 4 1 2 [⟨3, "B", scenarioNow - 108000000⟩]).next_chunk]]
    ∧ cursor_advance_transactional (setup_sent_txns scenarioYesterday scenarioSrc) = false :=
  c3_cursor_advance_transactions.2.1 scenarioYesterday scenarioSrc
    (SentSetup.mk 4 1 2 [⟨3, "B", scenarioNow - 108000000⟩]) (by decide)

/-- Outcome of one execution of the wrapped operation `func` inside
`Store.runInteraction`: a returned value, a `DatabaseError` (tagged with what
`database_engine.is_deadlock` reports for it), or any other exception. -/
inductive TxnOutcome (α : Type) where
  | ok (val : α)
  | dbError (deadlock : Bool)
  | otherError
deriving Repr

/-- Result of `Store.runInteraction`, recording the index of the execution on
which the loop finished (execution 0 is the first attempt, so index `k` means
`k` retries happened before it). -/
inductive RIResult (α : Type) where
  | success (val : α) (execIndex : Nat)
  | raisedDb (deadlock : Bool) (execIndex : Nat)
  | raisedOther (execIndex : Nat)
deriving Repr

/-- Index of the execution on which `runInteraction` finished. -/
def RIResult.attemptIndex : RIResult α → Nat
  | .success _ i => i
  | .raisedDb _ i => i
  | .raisedOther i => i

/-- The retry loop of `Store.runInteraction` with `i = 0, N = 5`: execute
`func`; on a `DatabaseError` that `is_deadlock` recognises, and while
`i < N`, increment `i`, roll back and retry; otherwise re-raise.  Exceptions
that are not `DatabaseError` propagate out of the loop at once (the outer
`except` only logs and re-raises).  The `fuel` argument makes the recursion
structural; its exhaustion arm is unreachable from `runInteraction` because
fuel 5 covers the at most 5 retries permitted by `i < 5`. -/
def runInteraction_loop (outcomes : Nat → TxnOutcome α) (fuel : Nat) (i : Nat) :
    RIResult α :=
  match outcomes i with
  | .ok v => .success v i
  | .otherError => .raisedOther i
  | .dbError dl =>
    if dl ∧ i < 5 then
      match fuel with
      | 0 => .raisedDb dl i
      | fuel2 + 1 => runInteraction_loop outcomes fuel2 (i + 1)
    else .raisedDb dl i

/-- `Store.runInteraction` on an operation whose successive execution
outcomes are given by `outcomes`. -/
def runInteraction (outcomes : Nat → TxnOutcome α) : RIResult α :=
  runInteraction_loop outcomes 5 0

theorem runInteraction_loop_ok (outcomes : Nat → TxnOutcome α) (fuel i : Nat)
    (v : α) (h : outcomes i = .ok v) :
    runInteraction_loop outcomes fuel i = .success v i := by
  unfold runInteraction_loop
  rw [h]

theorem runInteraction_loop_other (outcomes : Nat → TxnOutcome α) (fuel i : Nat)
    (h : outcomes i = .otherError) :
    runInteraction_loop outcomes fuel i = .raisedOther i := by
  unfold runInteraction_loop
  rw [h]

theorem runInteraction_loop_db (outcomes : Nat → TxnOutcome α) (fuel i : Nat)
    (dl : Bool) (h : outcomes i = .dbError dl) :
    runInteraction_loop outcomes fuel i
      = if dl ∧ i < 5 then
          (match fuel with
           | 0 => RIResult.raisedDb dl i
           | fuel2 + 1 => runInteraction_loop outcomes fuel2 (i + 1))
        else RIResult.raisedDb dl i := by
  conv_lhs => unfold runInteraction_loop
  rw [h]

theorem runInteraction_loop_attemptIndex_le (outcomes : Nat → TxnOutcome α) :
    ∀ (fuel i : Nat), i ≤ 5 →
      (runInteraction_loop outcomes fuel i).attemptIndex ≤ 5 := by
  intro fuel
  induction fuel with
  | zero =>
    intro i hi
    cases houtcome : outcomes i with
    | ok v => rw [runInteraction_loop_ok outcomes 0 i v houtcome]; exact hi
    | otherError => rw [runInteraction_loop_other outcomes 0 i houtcome]; exact hi
    | dbError dl =>
      rw [runInteraction_loop_db outcomes 0 i dl houtcome]
      by_cases hc : dl = true ∧ i < 5
      · rw [if_pos hc]; exact hi
      · rw [if_neg hc]; exact hi
  | succ fuel2 ih =>
    intro i hi
    cases houtcome : outcomes i with
    | ok v => rw [runInteraction_loop_ok outcomes (fuel2 + 1) i v houtcome]; exact hi
    | otherError => rw [runInteraction_loop_other outcomes (fuel2 + 1) i houtcome]; exact hi
    | dbError dl =>
      rw [runInteraction_loop_db outcomes (fuel2 + 1) i dl houtcome]
      by_cases hc : dl = true ∧ i < 5
      · rw [if_pos hc]
        exact ih (i + 1) (by omega)
      · rw [if_neg hc]; exact hi

theorem runInteraction_loop_success (outcomes : Nat → TxnOutcome α) :
    ∀ (fuel i : Nat) (v : α) (k : Nat),
      runInteraction_loop outcomes fuel i = .success v k → outcomes k = .ok v := by
  intro fuel
  induction fuel with
  | zero =>
    intro i v k h
    cases houtcome : outcomes i with
    | ok w =>
      rw [runInteraction_loop_ok outcomes 0 i w houtcome] at h
      obtain ⟨rfl, rfl⟩ : w = v ∧ i = k := by
        cases h
        exact ⟨rfl, rfl⟩
      exact houtcome
    | otherError => rw [runInteraction_loop_other outcomes 0 i houtcome] at h; cases h
    | dbError dl =>
      rw [runInteraction_loop_db outcomes 0 i dl houtcome] at h
      by_cases hc : dl = true ∧ i < 5
      · rw [if_pos hc] at h; cases h
      · rw [if_neg hc] at h; cases h
  | succ fuel2 ih =>
    intro i v k h
    cases houtcome : outcomes i with
    | ok w =>
      rw [runInteraction_loop_ok outcomes (fuel2 + 1) i w houtcome] at h
      obtain ⟨rfl, rfl⟩ : w = v ∧ i = k := by
        cases h
        exact ⟨rfl, rfl⟩
      exact houtcome
    | otherError =>
      rw [runInteraction_loop_other outcomes (fuel2 + 1) i houtcome] at h; cases h
    | dbError dl =>
      rw [runInteraction_loop_db outcomes (fuel2 + 1) i dl houtcome] at h
      by_cases hc : dl = true ∧ i < 5
      · rw [if_pos hc] at h
        exact ih (i + 1) v k h
      · rw [if_neg hc] at h; cases h

theorem runInteraction_loop_persistent_deadlock (outcomes : Nat → TxnOutcome α)
    (hall : ∀ j, outcomes j = .dbError true) :
    ∀ (fuel i : Nat), i + fuel = 5 →
      runInteraction_loop outcomes fuel i = .raisedDb true 5 := by
  intro fuel
  induction fuel with
  | zero =>
    intro i hi
    rw [runInteraction_loop_db outcomes 0 i true (hall i)]
    rw [if_neg (by omega)]
    have hieq : i = 5 := by omega
    rw [hieq]
  | succ fuel2 ih =>
    intro i hi
    rw [runInteraction_loop_db outcomes (fuel2 + 1) i true (hall i)]
    rw [if_pos ⟨rfl, by omega⟩]
    exact ih (i + 1) (by omega)

/-- C6: `runInteraction` executes the operation against a fresh cursor in a
transaction and returns its result; a deadlock-classified database error is
rolled back and retried with no backoff, at most 5 times (so at most 6
executions), after which the error is re-raised; a non-deadlock database
error, or any other exception, is re-raised immediately without retry. -/
theorem c6_runInteraction (α : Type) (outcomes : Nat → TxnOutcome α) :
    (runInteraction outcomes).attemptIndex ≤ 5
    ∧ (∀ (v : α) (k : Nat), runInteraction outcomes = .success v k → outcomes k = .ok v)
    ∧ (outcomes 0 = .dbError false → runInteraction outcomes = .raisedDb false 0)
    ∧ (outcomes 0 = .otherError → runInteraction outcomes = .raisedOther 0)
    ∧ ((∀ j, outcomes j = .dbError true) → runInteraction outcomes = .raisedDb true 5) := by
  refine ⟨?_, ?_, ?_, ?_, ?_⟩
  · exact runInteraction_loop_attemptIndex_le outcomes 5 0 (by omega)
  · intro v k h
    exact runInteraction_loop_success outcomes 5 0 v k h
  · intro h
    show runInteraction_loop outcomes 5 0 = RIResult.raisedDb false 0
    rw [runInteraction_loop_db outcomes 5 0 false h]
    rw [if_neg (by simp)]
  · intro h
    show runInteraction_loop outcomes 5 0 = RIResult.raisedOther 0
    exact runInteraction_loop_other outcomes 5 0 h
  · intro hall
    exact runInteraction_loop_persistent_deadlock outcomes hall 5 0 (by omega)

/-- Witness for C6 at a concrete input: an operation that deadlocks on every
execution is retried 5 times and then the deadlock error is re-raised on
execution index 5 (the 6th execution). -/
theorem c6_witness :
    runInteraction (fun _ => (TxnOutcome.dbError true : TxnOutcome Nat))
      = .raisedDb true 5 :=
  (c6_runInteraction Nat (fun _ => TxnOutcome.dbError true)).2.2.2.2 (fun _ => rfl)

/-- Model of `defer.gatherResults(..., consumeErrors=True)`: the underlying
`DeferredList` is created with `fireOnOneErrback=True`, so the gathered
deferred fails with the first failure if any constituent fails
(`consumeErrors` only suppresses unhandled-error logging for the others);
only when every constituent succeeds does it yield the list of results.
This model reports the first error in list order; for the properties below
only the existence of a failure matters. -/
def gatherResults {ε π : Type} : List (Except ε π) → Except ε (List π)
  | [] => .ok []
  | .error e :: _ => .error e
  | .ok a :: rest =>
    match gatherResults rest with
    | .error e => .error e
    | .ok l => .ok (a :: l)

/-- Observable outcome of `Porter.run` from the bookkeeping-table creation
step onwards: what the swallowed creation failure logged (if any), which
tables' copy phase actually ran, and the error captured in
`end_error_exec_info` (if the run died). -/
structure RunOutcome (ε κ : Type) where
  create_failure_logged : Option ε
  copied : List κ
  end_error : Option ε
deriving DecidableEq, Repr

/-- The tail of `Porter.run`: `create_port_table` is attempted inside
`try/except Exception`, whose handler only logs — the run continues whatever
the failure was.  Then the per-table `setup_table` results are gathered; if
the gather fails, the exception propagates to `run`'s own handler, which
records it in `end_error_exec_info` and stops the reactor — the
`handle_table` phase never runs for any table.  Otherwise every planned
table is copied. -/
def run_model {ε π κ : Type} (create_result : Except ε Unit)
    (setups : List (Except ε π)) (handle : π → κ) : RunOutcome ε κ :=
  let create_log : Option ε :=
    match create_result with
    | .ok _ => none
    | .error e => some e
  match gatherResults setups with
  | .error e => ⟨create_log, [], some e⟩
  | .ok plans => ⟨create_log, plans.map handle, none⟩

theorem gatherResults_error_of_mem {ε π : Type} (e : ε) :
    ∀ (l : List (Except ε π)), Except.error e ∈ l →
      ∃ e2, gatherResults l = Except.error e2 := by
  intro l
  induction l with
  | nil => intro h; simp at h
  | cons x rest ih =>
    intro h
    rcases List.mem_cons.mp h with rfl | hmem
    · exact ⟨e, rfl⟩
    · cases x with
      | error e3 => exact ⟨e3, rfl⟩
      | ok a =>
        obtain ⟨e2, he2⟩ := ih hmem
        refine ⟨e2, ?_⟩
        show (match gatherResults rest with
          | .error e => .error e
          | .ok l => .ok (a :: l)) = Except.error e2
        rw [he2]

/-- C2 counterexample: with table x's planning failing and table y's planning
succeeding, the gathered setup phase fails, the copy phase is skipped
entirely and y is NOT migrated in that run — contradicting the claim that y
still completes a full migration. -/
theorem c2_counterexample :
    run_model (Except.ok ()) [Except.error ("x planning failed"), Except.ok ("y")]
        (fun t => t)
      = ⟨none, [], some ("x planning failed")⟩
    ∧ ("y") ∉ (run_model (Except.ok ())
        [Except.error ("x planning failed"), Except.ok ("y")] (fun t => t)).copied := by
  exact ⟨rfl, by decide⟩

/-- C2 (amended): if any table's planning raises, the gather of setup results
fails with an error, `Porter.run` records it and stops before the copy phase:
NO table is copied in that run — a planner failure halts sibling tables'
migrations rather than being collected. -/
theorem c2_planner_failure_halts_run {ε π κ : Type} (create_result : Except ε Unit)
    (setups : List (Except ε π)) (handle : π → κ) (e : ε)
    (hmem : Except.error e ∈ setups) :
    (run_model create_result setups handle).copied = []
    ∧ (run_model create_result setups handle).end_error ≠ none := by
  obtain ⟨e2, he2⟩ := gatherResults_error_of_mem e setups hmem
  unfold run_model
  rw [he2]
  exact ⟨rfl, by simp⟩

/-- Witness for C2 (amended) at a concrete input: one failed and one
successful plan; nothing is copied and the run ends with an error. -/
theorem c2_witness :
    (run_model (Except.ok ()) [Except.error ("boom"), Except.ok ("y")]
        (fun t => t)).copied = []
    ∧ (run_model (Except.ok ()) [Except.error ("boom"), Except.ok ("y")]
        (fun t => t)).end_error ≠ none :=
  c2_planner_failure_halts_run (Except.ok ()) [Except.error ("boom"), Except.ok ("y")]
    (fun t => t) ("boom") (List.mem_cons_self _ _)

/-- C9 counterexample: a failure to create the bookkeeping table that is NOT
an "already exists" error (the table is truly absent, e.g. permission denied)
is swallowed by the blanket `except Exception` handler — the run logs it and
continues into planning and copying instead of aborting immediately. -/
theorem c9_counterexample :
    run_model (Except.error ("permission denied")) [Except.ok ("users")] (fun t => t)
      = ⟨some ("permission denied"), [("users")], none⟩
    ∧ (run_model (Except.error ("permission denied")) [Except.ok ("users")]
        (fun t => t)).copied ≠ [] := by
  exact ⟨rfl, by decide⟩

/-- C9 (amended): the `create_port_table` step tolerates EVERY failure, not
just "already exists": whatever the creation result, the rest of the run
(planning, copying, terminal error) is unchanged, and an error is merely
logged.  A creation failure with the table truly absent therefore does not
abort the run at this step. -/
theorem c9_create_failure_tolerated {ε π κ : Type} (create_result : Except ε Unit)
    (setups : List (Except ε π)) (handle : π → κ) :
    ((run_model create_result setups handle).copied
        = (run_model (Except.ok ()) setups handle).copied)
    ∧ ((run_model create_result setups handle).end_error
        = (run_model (Except.ok ()) setups handle).end_error)
    ∧ (∀ e, create_result = Except.error e →
        (run_model create_result setups handle).create_failure_logged = some e) := by
  refine ⟨?_, ?_, ?_⟩
  · unfold run_model
    cases gatherResults setups with
    | error e => rfl
    | ok plans => rfl
  · unfold run_model
    cases gatherResults setups with
    | error e => rfl
    | ok plans => rfl
  · intro e he
    subst he
    unfold run_model
    cases gatherResults setups with
    | error e2 => rfl
    | ok plans => rfl

/-- Witness for C9 (amended) at a concrete input: with a failing creation the
copy phase output and terminal error equal those of a successful creation,
and the failure is logged. -/
theorem c9_witness :
    ((run_model (Except.error ("perm")) [Except.ok ("users")] (fun t => t)).copied
        = (run_model (Except.ok () : Except String Unit) [Except.ok ("users")]
            (fun t => t)).copied)
    ∧ ((run_model (Except.error ("perm")) [Except.ok ("users")] (fun t => t)).end_error
        = (run_model (Except.ok () : Except String Unit) [Except.ok ("users")]
            (fun t => t)).end_error)
    ∧ (∀ e, (Except.error ("perm") : Except String Unit) = Except.error e →
        (run_model (Except.error ("perm")) [Except.ok ("users")]
          (fun t => t)).create_failure_logged = some e) :=
  c9_create_failure_tolerated (Except.error ("perm")) [Except.ok ("users")] (fun t => t)

end Port
